import Mathlib

unseal Rat.add Rat.sub Rat.mul Rat.inv Rat.ofScientific

/-
  Verification development for the KiCad-to-EasyEDA footprint converter
  (kicad_to_easyeda_footprint_converter.py).

  The Python source is shallowly embedded: floats are idealised as exact
  rationals (ℚ), Python dicts become structures, the regex-based pad scanner
  becomes a deterministic maximal-munch matcher (the pattern contains no
  ambiguous quantifier: every repeated class is disjoint from what follows,
  so the backtracking regex engine behaves as maximal munch), and the
  tilde-delimited shape strings become a tagged inductive carrying exactly
  the variable fields of the f-strings (the constant fields: empty net,
  rotation 0, locked 0, are fixed text in the source and are noted here).
-/

namespace KicadEasyeda

/-! ## Rounding and unit conversion (source: mm_to_easyeda, line 12-16)

Python round(x, 2) rounds the exact value of x to the nearest multiple of
1/100, ties to the even multiple (CPython documented behaviour).  `rhe` is
round-half-to-even to the nearest integer. -/

/-- Round to nearest integer, ties to even (semantics of Python round on the
exact value being rounded). -/
def rhe (q : ℚ) : ℤ :=
  if Int.fract q < 1/2 then ⌊q⌋
  else if 1/2 < Int.fract q then ⌊q⌋ + 1
  else if ⌊q⌋ % 2 = 0 then ⌊q⌋ else ⌊q⌋ + 1

/-- Source line 16: `round(mm * 39.3701 / 10, 2)`. -/
def mm_to_easyeda (mm : ℚ) : ℚ :=
  ((rhe (mm * (393701/10000) / 10 * 100) : ℚ)) / 100

/-- Round to nearest integer, ties away from zero.  Modelled from the spec
words of section 4.1 ("implementers should round-half-away-from-zero"), for
comparison with the source's rounding. -/
def roundHalfAway (q : ℚ) : ℤ :=
  if Int.fract q < 1/2 then ⌊q⌋
  else if 1/2 < Int.fract q then ⌊q⌋ + 1
  else if 0 ≤ q then ⌊q⌋ + 1 else ⌊q⌋

/-- The spec-words variant of the converter using half-away-from-zero ties. -/
def mm_to_easyeda_halfaway (mm : ℚ) : ℚ :=
  ((roundHalfAway (mm * (393701/10000) / 10 * 100) : ℚ)) / 100

/-! ## Pad extraction (source: parse_kicad_footprint, lines 18-80)

The pad regular expression (line 40) is

  (pad\s+"([^"]+)"\s+(\w+)\s+(\w+)\s*\n?\s*\(at\s+([-\d.]+)\s+([-\d.]+)[^)]*\)
    \s*\n?\s*\(size\s+([-\d.]+)\s+([-\d.]+)\)\s*\n?\s*\(drill\s+([-\d.]+)\)

Every repeated character class in it is disjoint from the construct that
follows it (a quote never matches [^"], whitespace never matches \w or
[-\d.], and a closing parenthesis never matches [^)]); also \s* \n? \s*
matches exactly the same strings as \s* since \n is itself in \s.  The
backtracking engine is therefore equivalent to the deterministic
maximal-munch matcher below.  Character classes are modelled over ASCII,
which covers the footprint text format. -/

/-- Python regex \s over ASCII. -/
def wsChar (c : Char) : Bool :=
  c = ' ' || c = '\t' || c = '\n' || c = '\r' || c = '\x0b' || c = '\x0c'

/-- Python regex \w over ASCII. -/
def wordChar (c : Char) : Bool := c.isAlphanum || c = '_'

/-- The class [-\d.]. -/
def numChar (c : Char) : Bool := c.isDigit || c = '-' || c = '.'

/-- Expect a literal string, return the remaining input. -/
def lit : List Char → List Char → Option (List Char)
  | [], s => some s
  | _ :: _, [] => none
  | c :: ps, d :: s => if c = d then lit ps s else none

/-- A nonempty maximal run of characters in class p (greedy X+ followed by a
disjoint construct). -/
def run1 (p : Char → Bool) (s : List Char) : Option (List Char × List Char) :=
  let r := s.takeWhile p
  if r.isEmpty then none else some (r, s.dropWhile p)

/-- A possibly empty maximal run (greedy X* followed by a disjoint construct). -/
def run0 (p : Char → Bool) (s : List Char) : List Char := s.dropWhile p

/-- The fragment [^)]*\): skip to the first closing parenthesis and consume it. -/
def tillClose (s : List Char) : Option (List Char) :=
  match s.dropWhile (fun c => ¬ c = ')') with
  | [] => none
  | _ :: rest => some rest

/-- One pad match: the eight capture groups and the span [start, stop) of the
whole match in the source text (match.start() and match.end()). -/
structure PadM where
  g1 : List Char
  g2 : List Char
  g3 : List Char
  g4 : List Char
  g5 : List Char
  g6 : List Char
  g7 : List Char
  g8 : List Char
  start : ℕ
  stop : ℕ
deriving DecidableEq, Repr

/-- The pattern fragment (pad\s+"([^"]+)"\s+(\w+)\s+(\w+). -/
def padHeader (s : List Char) : Option ((List Char × List Char × List Char) × List Char) := do
  let s ← lit "(pad".toList s
  let (_, s) ← run1 wsChar s
  let s ← lit "\"".toList s
  let (g1, s) ← run1 (fun c => ¬ c = '"') s
  let s ← lit "\"".toList s
  let (_, s) ← run1 wsChar s
  let (g2, s) ← run1 wordChar s
  let (_, s) ← run1 wsChar s
  let (g3, s) ← run1 wordChar s
  return ((g1, g2, g3), s)

/-- The pattern fragment \s*\n?\s*\(at\s+([-\d.]+)\s+([-\d.]+)[^)]*\). -/
def atPart (s : List Char) : Option ((List Char × List Char) × List Char) := do
  let s ← lit "(at".toList (run0 wsChar s)
  let (_, s) ← run1 wsChar s
  let (g4, s) ← run1 numChar s
  let (_, s) ← run1 wsChar s
  let (g5, s) ← run1 numChar s
  let s ← tillClose s
  return ((g4, g5), s)

/-- The pattern fragment \s*\n?\s*\(size\s+([-\d.]+)\s+([-\d.]+)\). -/
def sizePart (s : List Char) : Option ((List Char × List Char) × List Char) := do
  let s ← lit "(size".toList (run0 wsChar s)
  let (_, s) ← run1 wsChar s
  let (g6, s) ← run1 numChar s
  let (_, s) ← run1 wsChar s
  let (g7, s) ← run1 numChar s
  let s ← lit ")".toList s
  return ((g6, g7), s)

/-- The pattern fragment \s*\n?\s*\(drill\s+([-\d.]+)\). -/
def drillPart (s : List Char) : Option (List Char × List Char) := do
  let s ← lit "(drill".toList (run0 wsChar s)
  let (_, s) ← run1 wsChar s
  let (g8, s) ← run1 numChar s
  let s ← lit ")".toList s
  return (g8, s)

/-- Try the pad pattern at the head of s; on success return the groups and
the input remaining after the match (positions are filled by the scanner). -/
def matchPadHere (s : List Char) : Option (PadM × List Char) := do
  let ((g1, g2, g3), s) ← padHeader s
  let ((g4, g5), s) ← atPart s
  let ((g6, g7), s) ← sizePart s
  let (g8, s) ← drillPart s
  return (⟨g1, g2, g3, g4, g5, g6, g7, g8, 0, 0⟩, s)

/-- re.finditer scan: try the pattern at every position from left to right;
after a match, resume at its end (matches never overlap).  The fuel argument
only bounds the recursion; with fuel ≥ length + 1 it is never exhausted,
since every step consumes at least one character. -/
def scanPadsF : ℕ → List Char → ℕ → List PadM
  | 0, _, _ => []
  | _ + 1, [], _ => []
  | fuel + 1, s, i =>
    match matchPadHere s with
    | some (m, rest) =>
      let used := s.length - rest.length
      { m with start := i, stop := i + used } :: scanPadsF fuel rest (i + used)
    | none => scanPadsF fuel (s.drop 1) (i + 1)

/-- All pad matches of the source text, with their spans. -/
def padMatches (content : List Char) : List PadM :=
  scanPadsF (content.length + 1) content 0

/-- Substring test: does pat occur contiguously inside s (Python `in`)? -/
def hasSubstr (pat : List Char) : List Char → Bool
  | [] => pat.isEmpty
  | c :: rest => pat.isPrefixOf (c :: rest) || hasSubstr pat rest

/-- Source line 54: the slice kicad_content[match.start() : match.end()+200]
inspected for layer names.  Like a Python slice it is clamped to the end of
the text. -/
def layerWindow (content : List Char) (s e : ℕ) : List Char :=
  (content.drop s).take (e + 200 - s)

/-- Source lines 54-59: first of "F.Cu", "B.Cu", "*.Cu" found in the window
wins; none found leaves the layers key unset. -/
def layersFor (content : List Char) (s e : ℕ) : Option String :=
  if hasSubstr "F.Cu".toList (layerWindow content s e) then some "F.Cu"
  else if hasSubstr "B.Cu".toList (layerWindow content s e) then some "B.Cu"
  else if hasSubstr "*.Cu".toList (layerWindow content s e) then some "*.Cu"
  else none

/-- Value of a digit string. -/
def digitsVal (ds : List Char) : ℕ := ds.foldl (fun a c => 10 * a + (c.toNat - 48)) 0

/-- Python float() on an unsigned token drawn from the class [-\d.]: digits
with at most one dot and at least one digit.  None models the ValueError
float() raises on tokens like "1.2.3" or ".". -/
def pyFloatUnsigned (s : List Char) : Option ℚ :=
  let intPart := s.takeWhile Char.isDigit
  match s.dropWhile Char.isDigit with
  | [] => if intPart.isEmpty then none else some (digitsVal intPart)
  | '.' :: frac =>
    if frac.all Char.isDigit && !(intPart.isEmpty && frac.isEmpty) then
      some ((digitsVal intPart : ℚ) + (digitsVal frac : ℚ) / (10 : ℚ) ^ frac.length)
    else none
  | _ => none

/-- Python float() restricted to the class [-\d.]: an optional leading minus
then an unsigned literal. -/
def pyFloat? (s : List Char) : Option ℚ :=
  match s with
  | '-' :: rest => (pyFloatUnsigned rest).map (fun q => -q)
  | _ => pyFloatUnsigned s

/-- One parsed pad record (the dict built at lines 42-51 together with the
optional 'layers' key of lines 53-59; the absent key and the
pad.get('layers', []) default are both modelled by the empty list, which the
parser itself never produces). -/
structure Pad where
  number : String
  type : String
  shape : String
  x : ℚ
  y : ℚ
  width : ℚ
  height : ℚ
  drill : ℚ
  layers : List String
deriving DecidableEq, Repr

/-- Build the pad record of one match (lines 42-61); none models the
ValueError that float() would raise on a malformed numeric group. -/
def mkPad (content : List Char) (m : PadM) : Option Pad := do
  let x ← pyFloat? m.g4
  let y ← pyFloat? m.g5
  let w ← pyFloat? m.g6
  let h ← pyFloat? m.g7
  let d ← pyFloat? m.g8
  return { number := String.mk m.g1, type := String.mk m.g2, shape := String.mk m.g3,
           x := x, y := y, width := w, height := h, drill := d,
           layers := match layersFor content m.start m.stop with
                     | some l => [l]
                     | none => [] }

/-- The pad-extraction part of parse_kicad_footprint (lines 39-61).  The
name, description and circle extraction of the source function feed the
other fields of the returned dict and are not modelled here; no claim
concerns them. -/
def parse_kicad_footprint (content : List Char) : Option (List Pad) :=
  (padMatches content).mapM (mkPad content)

/-! ## Conversion (source: convert_to_easyeda, lines 82-247) -/

/-- One parsed circle (lines 72-77).  The converter reads cx, cy and radius;
the 'layer' key is the constant 'Cmts.User' and is never read back. -/
structure Circle where
  cx : ℚ
  cy : ℚ
  radius : ℚ
  layer : String
deriving DecidableEq, Repr

/-- The parse result fields the converter reads: footprint_data['name'],
['pads'] and ['circles']. -/
structure FootprintData where
  name : String
  pads : List Pad
  circles : List Circle
deriving DecidableEq, Repr

/-- An emitted shape token.  pad carries the variable fields of the PAD
f-string of lines 149 and 158 (the remaining fields of the format are the
constant texts: empty net, empty points, rotation 0, empty hole length and
hole points, locked 0); circle carries the variable fields of the CIRCLE
f-string of line 177 (the locked field is the constant 0). -/
inductive Shape where
  | pad (shapeType : String) (x y width height : ℚ) (layerId : String)
        (number : String) (holeRadius : ℚ) (gge : ℕ) (plated : String)
  | circle (cx cy r strokeWidth : ℚ) (layerId : String) (gge : ℕ)
deriving DecidableEq, Repr

/-- The numeric suffix of the token's gge identifier. -/
def Shape.ggeId : Shape → ℕ
  | .pad _ _ _ _ _ _ _ _ g _ => g
  | .circle _ _ _ _ _ g => g

/-- The layer_map dict of lines 86-92, accessed with .get(name, '1') at
line 157. -/
def layer_map (name : String) : String :=
  if name = "F.Cu" then "1"
  else if name = "B.Cu" then "2"
  else if name = "*.Cu" then "11"
  else if name = "F.SilkS" then "3"
  else if name = "Cmts.User" then "12"
  else "1"

/-- Pad outline mapping of lines 117-125. -/
def shapeTypeOf (s : String) : String :=
  if s = "circle" then "ELLIPSE"
  else if s = "rect" then "RECT"
  else if s = "oval" then "OVAL"
  else "ELLIPSE"

/-- Running bounding box.  The source starts from the sentinels ±inf
(lines 98-101) and tests min_x == inf at line 183; none models the
untouched sentinel state. -/
structure BBox where
  minX : ℚ
  maxX : ℚ
  minY : ℚ
  maxY : ℚ
deriving DecidableEq, Repr

/-- min/max update of lines 112-115 and 171-174 (on the sentinel state the
first update just installs the four values). -/
def bboxUpdate (b : Option BBox) (x0 x1 y0 y1 : ℚ) : Option BBox :=
  match b with
  | none => some ⟨x0, x1, y0, y1⟩
  | some b => some ⟨min b.minX x0, max b.maxX x1, min b.minY y0, max b.maxY y1⟩

/-- The emission state threaded through the two loops: the shapes list, the
gge counter (starting at 1, line 95) and the bounding box. -/
structure ConvState where
  shapes : List Shape
  gge : ℕ
  bbox : Option BBox
deriving DecidableEq, Repr

/-- The inner loop of lines 155-160: one extra unplated token per associated
layer name that is F.Cu or B.Cu. -/
def connectLoop (stype : String) (x y w h : ℚ) (number : String)
    (layers : List String) (acc : List Shape × ℕ) : List Shape × ℕ :=
  layers.foldl (fun acc ln =>
    if ln = "F.Cu" ∨ ln = "B.Cu" then
      (acc.1 ++ [Shape.pad stype x y w h (layer_map ln) number 0 acc.2 "N"], acc.2 + 1)
    else acc) acc

/-- One iteration of the pad loop (lines 104-160). -/
def convertPadStep (st : ConvState) (p : Pad) : ConvState :=
  let x := mm_to_easyeda p.x
  let y := mm_to_easyeda p.y
  let width := mm_to_easyeda p.width
  let height := mm_to_easyeda p.height
  let drill0 := mm_to_easyeda p.drill
  let bbox := bboxUpdate st.bbox (x - width/2) (x + width/2) (y - height/2) (y + height/2)
  let stype := shapeTypeOf p.shape
  let res : String × String × ℚ :=
    if p.type = "thru_hole" then ("11", "Y", drill0)
    else if p.type = "connect" then
      ((if p.layers.contains "F.Cu" then "1"
        else if p.layers.contains "B.Cu" then "2" else "1"), "N", 0)
    else ("11", "Y", drill0)
  let layerId := res.1
  let plated := res.2.1
  let drill := res.2.2
  let sg : List Shape × ℕ :=
    if 0 < drill ∧ p.type = "thru_hole" then
      (st.shapes ++ [Shape.pad stype x y width height layerId p.number (drill/2) st.gge plated],
       st.gge + 1)
    else (st.shapes, st.gge)
  let sg :=
    if p.type = "connect" then connectLoop stype x y width height p.number p.layers sg
    else sg
  { shapes := sg.1, gge := sg.2, bbox := bbox }

/-- One iteration of the circle loop (lines 163-179); the stroke width is the
unrounded constant 0.15 * 3.937 of line 168 and the layer id is the
constant '12' of line 167. -/
def convertCircleStep (st : ConvState) (c : Circle) : ConvState :=
  let cx := mm_to_easyeda c.cx
  let cy := mm_to_easyeda c.cy
  let r := mm_to_easyeda c.radius
  let strokeWidth : ℚ := (15/100) * (3937/1000)
  let bbox := bboxUpdate st.bbox (cx - r) (cx + r) (cy - r) (cy + r)
  { shapes := st.shapes ++ [Shape.circle cx cy r strokeWidth "12" st.gge],
    gge := st.gge + 1, bbox := bbox }

/-- State after both loops: pads first (lines 104-160), then circles
(lines 163-179), starting from shapes = [], gge = 1, sentinel box. -/
def finalState (fp : FootprintData) : ConvState :=
  fp.circles.foldl convertCircleStep (fp.pads.foldl convertPadStep ⟨[], 1, none⟩)

/-- Python int(): truncation toward zero. -/
def pyInt (q : ℚ) : ℤ := if 0 ≤ q then ⌊q⌋ else ⌈q⌉

/-- The output fields that depend on the input: head.x and head.y
(lines 206-207), the two origin coordinates embedded in the canvas string
(line 209), the shape array (line 210) and the package name (line 201).
The layers and objects arrays (lines 211-244) are constant text. -/
structure EasyedaOut where
  headX : ℤ
  headY : ℤ
  canvasX : ℤ
  canvasY : ℤ
  shape : List Shape
  package : String
deriving DecidableEq, Repr

/-- Lines 181-245: origin from the bounding box (default 4000, 3000 when the
sentinels were never touched, otherwise offset + center per axis), truncated
to int in both the head and the canvas descriptor. -/
def convert_to_easyeda (fp : FootprintData) : EasyedaOut :=
  let st := finalState fp
  let origin : ℚ × ℚ :=
    match st.bbox with
    | none => (4000, 3000)
    | some b => (4000 + (b.minX + b.maxX)/2, 3000 + (b.minY + b.maxY)/2)
  { headX := pyInt origin.1, headY := pyInt origin.2,
    canvasX := pyInt origin.1, canvasY := pyInt origin.2,
    shape := st.shapes, package := fp.name }

/-! ## Output path derivation (source: main, line 256) -/

/-- Python str.replace scanning left to right and replacing every
non-overlapping occurrence.  The fuel argument only bounds the recursion;
with fuel ≥ length + 1 it is never exhausted.  (Python's special treatment
of an empty pattern is irrelevant here: the pattern used is nonempty.) -/
def pyReplaceF : ℕ → List Char → List Char → List Char → List Char
  | 0, s, _, _ => s
  | fuel + 1, s, old, new =>
    if old ≠ [] ∧ old.isPrefixOf s then new ++ pyReplaceF fuel (s.drop old.length) old new
    else
      match s with
      | [] => []
      | c :: rest => c :: pyReplaceF fuel rest old new

/-- Python s.replace(old, new) for a nonempty pattern. -/
def pyReplace (s old new : List Char) : List Char := pyReplaceF (s.length + 1) s old new

/-- Line 256: input_file.replace('.kicad_mod', '_easyeda.json'), the default
output path when the second CLI argument is omitted. -/
def default_output_file (input : List Char) : List Char :=
  pyReplace input ".kicad_mod".toList "_easyeda.json".toList

/-! ## Derived definitions used by the statements -/

/-- The pure geometric extent of one pad: the bounding-box update of
lines 112-115, detached from emission. -/
def padExtent (b : Option BBox) (p : Pad) : Option BBox :=
  bboxUpdate b
    (mm_to_easyeda p.x - mm_to_easyeda p.width / 2)
    (mm_to_easyeda p.x + mm_to_easyeda p.width / 2)
    (mm_to_easyeda p.y - mm_to_easyeda p.height / 2)
    (mm_to_easyeda p.y + mm_to_easyeda p.height / 2)

/-- The pure geometric extent of one circle: the bounding-box update of
lines 171-174, detached from emission. -/
def circleExtent (b : Option BBox) (c : Circle) : Option BBox :=
  bboxUpdate b
    (mm_to_easyeda c.cx - mm_to_easyeda c.radius)
    (mm_to_easyeda c.cx + mm_to_easyeda c.radius)
    (mm_to_easyeda c.cy - mm_to_easyeda c.radius)
    (mm_to_easyeda c.cy + mm_to_easyeda c.radius)

/-- Bounding box of the input's geometry alone, with no reference to which
primitives emit tokens. -/
def geomBBox (fp : FootprintData) : Option BBox :=
  fp.circles.foldl circleExtent (fp.pads.foldl padExtent none)

/-- The emission invariant: the tokens collected so far carry the gge ids
a, a+1, ... in order, and the counter sits one past the last id used. -/
def EmitInv (a : ℕ) (sg : List Shape × ℕ) : Prop :=
  sg.1.map Shape.ggeId = List.range' a sg.1.length ∧ sg.2 = a + sg.1.length

/-! ## Concrete inputs used by witnesses and counterexamples -/

/-- A through-hole pad: the sample scenario of the spec (position (1, 2),
size 1.7 x 1.7, drill 1.0). -/
def padTH : Pad := ⟨"1", "thru_hole", "circle", 1, 2, 17/10, 17/10, 1, ["*.Cu"]⟩

/-- A through-hole pad whose drill 0.001 mm is positive but converts to 0
target units. -/
def padTinyDrill : Pad := ⟨"1", "thru_hole", "circle", 1, 2, 17/10, 17/10, 1/1000, ["*.Cu"]⟩

/-- A connect pad associated with the front copper layer, with a nonzero
parsed drill. -/
def padCF : Pad := ⟨"2", "connect", "rect", 1, 2, 3, 4, 5, ["F.Cu"]⟩

/-- A surface-mount pad with a nonzero parsed drill. -/
def padSmd : Pad := ⟨"3", "smd", "rect", 0, 0, 1, 1, 7, ["F.Cu"]⟩

/-- A connect pad with no associated layer. -/
def padCN1 : Pad := ⟨"4", "connect", "oval", 0, 0, 1, 1, 9, []⟩

/-- A connect pad associated with the both-sides layer name. -/
def padCN2 : Pad := ⟨"5", "connect", "circle", 0, 0, 1, 1, 9, ["*.Cu"]⟩

/-- A pad construct whose size and drill tokens are negative. -/
def negSizeInput : List Char :=
  "(pad \"1\" smd rect (at 0 0) (size -1 -1) (drill -0.5))".toList

/-- The pad record the source extracts from negSizeInput. -/
def negSizePad : Pad := ⟨"1", "smd", "rect", 0, 0, -1, -1, -1/2, []⟩

/-- A pad construct whose quoted pad number is the text F.Cu while the text
after the match associates the pad with B.Cu only. -/
def fcuNumInput : List Char :=
  "(pad \"F.Cu\" connect rect (at 0 0) (size 1 1) (drill 0) (layers B.Cu))".toList

/-- The pad record the source extracts from fcuNumInput: the layer comes
from the quoted pad number inside the match, not from the text after it. -/
def fcuNumPad : Pad := ⟨"F.Cu", "connect", "rect", 0, 0, 1, 1, 0, ["F.Cu"]⟩

/-! ## Helper lemmas -/

theorem rhe_le (q : ℚ) : (rhe q : ℚ) ≤ q + 1/2 := by
  have h0 : (0:ℚ) ≤ Int.fract q := Int.fract_nonneg q
  have h1 : Int.fract q < 1 := Int.fract_lt_one q
  have hf : (⌊q⌋ : ℚ) + Int.fract q = q := Int.floor_add_fract q
  unfold rhe
  split_ifs <;> push_cast <;> linarith

theorem rhe_ge (q : ℚ) : q - 1/2 ≤ (rhe q : ℚ) := by
  have h0 : (0:ℚ) ≤ Int.fract q := Int.fract_nonneg q
  have h1 : Int.fract q < 1 := Int.fract_lt_one q
  have hf : (⌊q⌋ : ℚ) + Int.fract q = q := Int.floor_add_fract q
  unfold rhe
  split_ifs <;> push_cast <;> linarith

theorem rhe_mono {a b : ℚ} (h : a ≤ b) : rhe a ≤ rhe b := by
  by_contra hlt
  push_neg at hlt
  have h1 : rhe b + 1 ≤ rhe a := hlt
  have h1q : (rhe b : ℚ) + 1 ≤ (rhe a : ℚ) := by exact_mod_cast h1
  have h2 := rhe_le a
  have h3 := rhe_ge b
  have hab : a = b := le_antisymm h (by linarith)
  rw [hab] at h1q
  linarith

theorem convertPadStep_bbox (st : ConvState) (p : Pad) :
    (convertPadStep st p).bbox = bboxUpdate st.bbox
      (mm_to_easyeda p.x - mm_to_easyeda p.width / 2)
      (mm_to_easyeda p.x + mm_to_easyeda p.width / 2)
      (mm_to_easyeda p.y - mm_to_easyeda p.height / 2)
      (mm_to_easyeda p.y + mm_to_easyeda p.height / 2) := rfl

theorem convertCircleStep_bbox (st : ConvState) (c : Circle) :
    (convertCircleStep st c).bbox = bboxUpdate st.bbox
      (mm_to_easyeda c.cx - mm_to_easyeda c.radius)
      (mm_to_easyeda c.cx + mm_to_easyeda c.radius)
      (mm_to_easyeda c.cy - mm_to_easyeda c.radius)
      (mm_to_easyeda c.cy + mm_to_easyeda c.radius) := rfl

theorem foldl_padStep_bbox : ∀ (l : List Pad) (st : ConvState),
    (l.foldl convertPadStep st).bbox = l.foldl padExtent st.bbox := by
  intro l
  induction l with
  | nil => intro st; rfl
  | cons p t ih =>
    intro st
    rw [List.foldl_cons, List.foldl_cons, ih, convertPadStep_bbox]
    rfl

theorem foldl_circleStep_bbox : ∀ (l : List Circle) (st : ConvState),
    (l.foldl convertCircleStep st).bbox = l.foldl circleExtent st.bbox := by
  intro l
  induction l with
  | nil => intro st; rfl
  | cons c t ih =>
    intro st
    rw [List.foldl_cons, List.foldl_cons, ih, convertCircleStep_bbox]
    rfl

theorem bboxUpdate_isSome (b : Option BBox) (x0 x1 y0 y1 : ℚ) :
    (bboxUpdate b x0 x1 y0 y1).isSome := by
  cases b <;> rfl

theorem foldl_padStep_isSome : ∀ (l : List Pad) (st : ConvState),
    (st.bbox.isSome ∨ l ≠ []) → ((l.foldl convertPadStep st).bbox).isSome := by
  intro l
  induction l with
  | nil =>
    intro st h
    rcases h with h | h
    · exact h
    · exact absurd rfl h
  | cons p t ih =>
    intro st _
    rw [List.foldl_cons]
    exact ih _ (Or.inl (by rw [convertPadStep_bbox]; exact bboxUpdate_isSome _ _ _ _ _))

theorem foldl_circleStep_isSome : ∀ (l : List Circle) (st : ConvState),
    (st.bbox.isSome ∨ l ≠ []) → ((l.foldl convertCircleStep st).bbox).isSome := by
  intro l
  induction l with
  | nil =>
    intro st h
    rcases h with h | h
    · exact h
    · exact absurd rfl h
  | cons c t ih =>
    intro st _
    rw [List.foldl_cons]
    exact ih _ (Or.inl (by rw [convertCircleStep_bbox]; exact bboxUpdate_isSome _ _ _ _ _))

theorem convertPadStep_smd (st : ConvState) (p : Pad) (ht : p.type = "smd") :
    (convertPadStep st p).shapes = st.shapes ∧ (convertPadStep st p).gge = st.gge := by
  unfold convertPadStep
  rw [ht]
  simp

theorem range'_snoc (a n : ℕ) : List.range' a (n + 1) = List.range' a n ++ [a + n] := by
  have h := @List.range'_concat 1 a n
  simpa using h

theorem emitInv_push {a : ℕ} {sg : List Shape × ℕ} (h : EmitInv a sg)
    (tok : Shape) (htok : tok.ggeId = sg.2) :
    EmitInv a (sg.1 ++ [tok], sg.2 + 1) := by
  obtain ⟨h1, h2⟩ := h
  constructor
  · show (sg.1 ++ [tok]).map Shape.ggeId = List.range' a (sg.1 ++ [tok]).length
    rw [List.map_append, h1, List.length_append]
    simp only [List.map_cons, List.map_nil, List.length_cons, List.length_nil]
    rw [htok, h2, range'_snoc]
  · show sg.2 + 1 = a + (sg.1 ++ [tok]).length
    rw [List.length_append, h2]
    simp only [List.length_cons, List.length_nil]
    omega

theorem connectLoop_inv (stype : String) (x y w h : ℚ) (num : String) :
    ∀ (ls : List String) {a : ℕ} (sg : List Shape × ℕ), EmitInv a sg →
      EmitInv a (connectLoop stype x y w h num ls sg) := by
  intro ls
  induction ls with
  | nil => intro a sg hg; exact hg
  | cons l t ih =>
    intro a sg hg
    show EmitInv a (connectLoop stype x y w h num (l :: t) sg)
    unfold connectLoop at ih ⊢
    rw [List.foldl_cons]
    by_cases hc : l = "F.Cu" ∨ l = "B.Cu"
    · rw [if_pos hc]
      exact ih _ (emitInv_push hg _ rfl)
    · rw [if_neg hc]
      exact ih _ hg

theorem convertPadStep_inv {a : ℕ} (st : ConvState) (p : Pad)
    (h : EmitInv a (st.shapes, st.gge)) :
    EmitInv a ((convertPadStep st p).shapes, (convertPadStep st p).gge) := by
  unfold convertPadStep
  dsimp only
  split_ifs <;>
    simp only [Prod.mk.eta] <;>
    first
      | exact connectLoop_inv _ _ _ _ _ _ _ _ (emitInv_push h _ rfl)
      | exact connectLoop_inv _ _ _ _ _ _ _ _ h
      | exact emitInv_push h _ rfl
      | exact h

theorem convertCircleStep_inv {a : ℕ} (st : ConvState) (c : Circle)
    (h : EmitInv a (st.shapes, st.gge)) :
    EmitInv a ((convertCircleStep st c).shapes, (convertCircleStep st c).gge) := by
  unfold convertCircleStep
  dsimp only
  exact emitInv_push h _ rfl

theorem foldl_padStep_inv {a : ℕ} : ∀ (l : List Pad) (st : ConvState),
    EmitInv a (st.shapes, st.gge) →
    EmitInv a ((l.foldl convertPadStep st).shapes, (l.foldl convertPadStep st).gge) := by
  intro l
  induction l with
  | nil => intro st h; exact h
  | cons p t ih =>
    intro st h
    rw [List.foldl_cons]
    exact ih _ (convertPadStep_inv st p h)

theorem foldl_circleStep_inv {a : ℕ} : ∀ (l : List Circle) (st : ConvState),
    EmitInv a (st.shapes, st.gge) →
    EmitInv a ((l.foldl convertCircleStep st).shapes, (l.foldl convertCircleStep st).gge) := by
  intro l
  induction l with
  | nil => intro st h; exact h
  | cons c t ih =>
    intro st h
    rw [List.foldl_cons]
    exact ih _ (convertCircleStep_inv st c h)

theorem foldl_circleStep_shapes_isPre : ∀ (l : List Circle) (st : ConvState),
    st.shapes <+: (l.foldl convertCircleStep st).shapes := by
  intro l
  induction l with
  | nil => intro st; exact List.prefix_rfl
  | cons c t ih =>
    intro st
    rw [List.foldl_cons]
    refine List.IsPrefix.trans ?_ (ih _)
    show st.shapes <+: (convertCircleStep st c).shapes
    unfold convertCircleStep
    exact List.prefix_append _ _

theorem pyReplaceF_nil (fuel : ℕ) (old new : List Char) (h : old ≠ []) :
    pyReplaceF fuel [] old new = [] := by
  cases fuel with
  | zero => rfl
  | succ fuel =>
    cases old with
    | nil => exact absurd rfl h
    | cons o os => simp [pyReplaceF, List.isPrefixOf]

theorem pyReplaceF_stem : ∀ (fuel : ℕ) (stem : List Char), stem.length < fuel →
    (∀ c ∈ stem, ¬ c = '.') →
    pyReplaceF fuel (stem ++ ".kicad_mod".toList) ".kicad_mod".toList "_easyeda.json".toList
      = stem ++ "_easyeda.json".toList := by
  intro fuel
  induction fuel with
  | zero => intro stem h; omega
  | succ fuel ih =>
    intro stem hlen hdot
    cases stem with
    | nil =>
      show pyReplaceF (fuel + 1) ([] ++ ".kicad_mod".toList) _ _ = _
      rw [List.nil_append]
      unfold pyReplaceF
      rw [if_pos ⟨by decide, by decide⟩]
      rw [show (".kicad_mod".toList.drop ".kicad_mod".toList.length) = [] from List.drop_length _]
      rw [pyReplaceF_nil fuel _ _ (by decide)]
      rfl
    | cons c rest =>
      have hc : ¬ c = '.' := hdot c (by simp)
      have hguard : ¬ (".kicad_mod".toList ≠ [] ∧
          ".kicad_mod".toList.isPrefixOf (c :: (rest ++ ".kicad_mod".toList))) := by
        rintro ⟨-, hpf⟩
        have hpf2 : (('.' == c) && ("kicad_mod".toList.isPrefixOf (rest ++ ".kicad_mod".toList)))
            = true := hpf
        have hne : ('.' == c) = false := by
          cases hbe : ('.' == c)
          · rfl
          · exact absurd (eq_of_beq hbe).symm hc
        rw [hne] at hpf2
        simp at hpf2
      show pyReplaceF (fuel + 1) ((c :: rest) ++ ".kicad_mod".toList) _ _ = _
      rw [List.cons_append]
      unfold pyReplaceF
      rw [if_neg hguard]
      have hrec := ih rest (by simp at hlen; omega) (fun d hd => hdot d (by simp [hd]))
      show c :: pyReplaceF fuel (rest ++ ".kicad_mod".toList) ".kicad_mod".toList
          "_easyeda.json".toList = c :: rest ++ "_easyeda.json".toList
      rw [hrec, List.cons_append]

/-! ## The claims -/

/-- C1 (amended): for every pad whose mount kind is thru_hole and whose
drill value converts to a target value greater than 0, the pad loop emits
exactly one PAD-token for that pad, with plating flag Y, layer id 11
(multi-layer) and hole radius equal to half the converted drill value, and
advances the gge counter by exactly one.  (The source tests the converted
drill, not the source drill, against 0.) -/
theorem claim1_thru_hole_pad_token (st : ConvState) (p : Pad)
    (ht : p.type = "thru_hole") (hd : 0 < mm_to_easyeda p.drill) :
    (convertPadStep st p).shapes =
      st.shapes ++ [Shape.pad (shapeTypeOf p.shape) (mm_to_easyeda p.x) (mm_to_easyeda p.y)
        (mm_to_easyeda p.width) (mm_to_easyeda p.height) "11" p.number
        (mm_to_easyeda p.drill / 2) st.gge "Y"] ∧
    (convertPadStep st p).gge = st.gge + 1 := by
  unfold convertPadStep
  rw [ht]
  simp [hd]

/-- C1 witness: the spec's sample through-hole pad at (1, 2), size 1.7,
drill 1.0 emits exactly its one plated multi-layer token. -/
theorem claim1_witness :
    padTH.type = "thru_hole" ∧ (0:ℚ) < mm_to_easyeda padTH.drill ∧
    ((convertPadStep ⟨[], 1, none⟩ padTH).shapes =
      [] ++ [Shape.pad (shapeTypeOf padTH.shape) (mm_to_easyeda padTH.x) (mm_to_easyeda padTH.y)
        (mm_to_easyeda padTH.width) (mm_to_easyeda padTH.height) "11" padTH.number
        (mm_to_easyeda padTH.drill / 2) 1 "Y"] ∧
     (convertPadStep ⟨[], 1, none⟩ padTH).gge = 1 + 1) :=
  ⟨rfl, by decide, claim1_thru_hole_pad_token ⟨[], 1, none⟩ padTH rfl (by decide)⟩

/-- C1 counterexample to the claim as stated: padTinyDrill has source drill
0.001 > 0 and mount kind thru_hole, yet the emitter produces no token at
all, because 0.001 mm converts to 0 target units. -/
theorem claim1_counterexample :
    (0:ℚ) < padTinyDrill.drill ∧ padTinyDrill.type = "thru_hole" ∧
    (convertPadStep ⟨[], 1, none⟩ padTinyDrill).shapes = [] ∧
    (convert_to_easyeda ⟨"", [padTinyDrill], []⟩).shape = [] := by
  refine ⟨by decide, rfl, ?_, ?_⟩ <;> decide

/-- C2: for every pad whose mount kind is connect and whose associated
layers are exactly the front copper layer, the pad loop emits exactly one
PAD-token on layer id 1, unplated (N) and with hole radius 0, whatever the
parsed drill value, and advances the gge counter by one. -/
theorem claim2_connect_front_token (st : ConvState) (p : Pad)
    (ht : p.type = "connect") (hl : p.layers = ["F.Cu"]) :
    (convertPadStep st p).shapes =
      st.shapes ++ [Shape.pad (shapeTypeOf p.shape) (mm_to_easyeda p.x) (mm_to_easyeda p.y)
        (mm_to_easyeda p.width) (mm_to_easyeda p.height) "1" p.number 0 st.gge "N"] ∧
    (convertPadStep st p).gge = st.gge + 1 := by
  unfold convertPadStep
  rw [ht, hl]
  simp [connectLoop, layer_map]

/-- C2 witness: a concrete connect pad on F.Cu with parsed drill 5 emits
exactly one unplated front-layer token with hole radius 0. -/
theorem claim2_witness :
    padCF.type = "connect" ∧ padCF.layers = ["F.Cu"] ∧ padCF.drill = 5 ∧
    ((convertPadStep ⟨[], 1, none⟩ padCF).shapes =
      [] ++ [Shape.pad (shapeTypeOf padCF.shape) (mm_to_easyeda padCF.x) (mm_to_easyeda padCF.y)
        (mm_to_easyeda padCF.width) (mm_to_easyeda padCF.height) "1" padCF.number 0 1 "N"] ∧
     (convertPadStep ⟨[], 1, none⟩ padCF).gge = 1 + 1) :=
  ⟨rfl, rfl, rfl, claim2_connect_front_token ⟨[], 1, none⟩ padCF rfl rfl⟩

/-- C5 (amended): parsed width, height and drill are not guaranteed
non-negative (the numeric pattern [-\d.]+ admits a leading minus, see the
counterexample); what does hold is that a pad of mount kind smd emits no
token at all, so its drill value never reaches any emitted token. -/
theorem claim5_smd_no_tokens (st : ConvState) (p : Pad) (ht : p.type = "smd") :
    (convertPadStep st p).shapes = st.shapes ∧ (convertPadStep st p).gge = st.gge :=
  convertPadStep_smd st p ht

/-- C5 witness: a concrete smd pad with parsed drill 7 emits nothing. -/
theorem claim5_witness :
    padSmd.type = "smd" ∧ padSmd.drill = 7 ∧
    ((convertPadStep ⟨[], 1, none⟩ padSmd).shapes = [] ∧
     (convertPadStep ⟨[], 1, none⟩ padSmd).gge = 1) :=
  ⟨rfl, rfl, claim5_smd_no_tokens ⟨[], 1, none⟩ padSmd rfl⟩

/-- C5 counterexample to the stated invariant: the extractor accepts
(size -1 -1) and (drill -0.5), producing a pad record with negative width,
height and drill. -/
theorem claim5_counterexample :
    parse_kicad_footprint negSizeInput = some [negSizePad] ∧
    negSizePad.width < 0 ∧ negSizePad.height < 0 ∧ negSizePad.drill < 0 := by
  refine ⟨?_, ?_, ?_, ?_⟩ <;> decide

/-- C8 (amended): the converter satisfies convert(0) = 0 and
convert(1) = 3.94 and is monotone; its rounding of exact halves is
half-to-even (Python round), not half-away-from-zero. -/
theorem claim8_converter :
    mm_to_easyeda 0 = 0 ∧ mm_to_easyeda 1 = 394/100 ∧
    ∀ a b : ℚ, a ≤ b → mm_to_easyeda a ≤ mm_to_easyeda b := by
  refine ⟨by decide, by decide, ?_⟩
  intro a b h
  unfold mm_to_easyeda
  have h2 : a * (393701/10000) / 10 * 100 ≤ b * (393701/10000) / 10 * 100 := by linarith
  have h3 := rhe_mono h2
  have h4 : ((rhe (a * (393701/10000) / 10 * 100) : ℚ))
      ≤ ((rhe (b * (393701/10000) / 10 * 100) : ℚ)) := by exact_mod_cast h3
  linarith

/-- C8 witness: monotonicity applied at 0 ≤ 2. -/
theorem claim8_witness : (0:ℚ) ≤ 2 ∧ mm_to_easyeda 0 ≤ mm_to_easyeda 2 :=
  ⟨by norm_num, claim8_converter.2.2 0 2 (by norm_num)⟩

/-- C8 counterexample to half-away-from-zero rounding: 500 mm scales to
exactly 1968.505, a tie, which the source rounds to 1968.50 (ties to even)
while half-away-from-zero would give 1968.51. -/
theorem claim8_counterexample :
    mm_to_easyeda 500 = 19685/10 ∧ mm_to_easyeda_halfaway 500 = 196851/100 ∧
    ¬ mm_to_easyeda 500 = mm_to_easyeda_halfaway 500 := by
  refine ⟨?_, ?_, ?_⟩ <;> decide

/-- C9 (amended): the default output path is the input path with every
occurrence of ".kicad_mod" replaced by "_easyeda.json" (Python str.replace
replaces all occurrences, not only a trailing extension); when the only dot
of the path is the one of a trailing ".kicad_mod", this is exactly the
extension swap the claim describes. -/
theorem claim9_default_output (stem : List Char) (h : ∀ c ∈ stem, ¬ c = '.') :
    default_output_file (stem ++ ".kicad_mod".toList) = stem ++ "_easyeda.json".toList := by
  unfold default_output_file pyReplace
  apply pyReplaceF_stem _ _ _ h
  rw [List.length_append]
  omega

/-- C9 witness: board.kicad_mod maps to board_easyeda.json. -/
theorem claim9_witness :
    (∀ c ∈ "board".toList, ¬ c = '.') ∧
    default_output_file ("board".toList ++ ".kicad_mod".toList)
      = "board".toList ++ "_easyeda.json".toList :=
  ⟨by decide, claim9_default_output "board".toList (by decide)⟩

/-- C9 counterexample to touching only the trailing extension: an input
containing ".kicad_mod" twice has both occurrences replaced. -/
theorem claim9_counterexample :
    default_output_file "a.kicad_mod.kicad_mod".toList
      = "a_easyeda.json_easyeda.json".toList ∧
    ¬ default_output_file "a.kicad_mod.kicad_mod".toList
      = "a.kicad_mod_easyeda.json".toList := by
  refine ⟨?_, ?_⟩ <;> decide

/-- C10: a connect pad whose layers are unset or contain only the
both-sides name *.Cu emits no token at all (the per-layer pass only emits
for F.Cu and B.Cu, and the through-hole branch requires mount kind
thru_hole), whatever the parsed drill. -/
theorem claim10_connect_no_emit (st : ConvState) (p : Pad)
    (ht : p.type = "connect") (hl : p.layers = [] ∨ p.layers = ["*.Cu"]) :
    (convertPadStep st p).shapes = st.shapes ∧ (convertPadStep st p).gge = st.gge := by
  unfold convertPadStep
  rw [ht]
  rcases hl with hl | hl <;> rw [hl] <;> simp [connectLoop]

/-- C10 witness: concrete connect pads with drill 9 and layers [] or
["*.Cu"] emit nothing. -/
theorem claim10_witness :
    (padCN1.type = "connect" ∧ padCN1.layers = [] ∧
      (convertPadStep ⟨[], 1, none⟩ padCN1).shapes = [] ∧
      (convertPadStep ⟨[], 1, none⟩ padCN1).gge = 1) ∧
    (padCN2.type = "connect" ∧ padCN2.layers = ["*.Cu"] ∧
      (convertPadStep ⟨[], 1, none⟩ padCN2).shapes = [] ∧
      (convertPadStep ⟨[], 1, none⟩ padCN2).gge = 1) :=
  ⟨⟨rfl, rfl, claim10_connect_no_emit ⟨[], 1, none⟩ padCN1 rfl (Or.inl rfl)⟩,
   ⟨rfl, rfl, claim10_connect_no_emit ⟨[], 1, none⟩ padCN2 rfl (Or.inr rfl)⟩⟩

/-- C3: with no pad and no circle the shape array is empty and the origin
is the fixed default point (4000, 3000), in the header and in the canvas
descriptor; otherwise the origin is the canvas offset plus the center of
the accumulated bounding box, per axis, truncated to an integer, and the
canvas descriptor embeds the same two truncated coordinates as the
header. -/
theorem claim3_origin (fp : FootprintData) :
    (fp.pads = [] ∧ fp.circles = [] →
      (convert_to_easyeda fp).shape = [] ∧
      (convert_to_easyeda fp).headX = 4000 ∧ (convert_to_easyeda fp).headY = 3000 ∧
      (convert_to_easyeda fp).canvasX = 4000 ∧ (convert_to_easyeda fp).canvasY = 3000) ∧
    ((fp.pads ≠ [] ∨ fp.circles ≠ []) → ∃ b : BBox, (finalState fp).bbox = some b ∧
      (convert_to_easyeda fp).headX = pyInt (4000 + (b.minX + b.maxX) / 2) ∧
      (convert_to_easyeda fp).headY = pyInt (3000 + (b.minY + b.maxY) / 2) ∧
      (convert_to_easyeda fp).canvasX = (convert_to_easyeda fp).headX ∧
      (convert_to_easyeda fp).canvasY = (convert_to_easyeda fp).headY) := by
  constructor
  · rintro ⟨hp, hc⟩
    have hfs : finalState fp = ⟨[], 1, none⟩ := by
      unfold finalState
      rw [hp, hc]
      rfl
    unfold convert_to_easyeda
    rw [hfs]
    exact ⟨rfl, rfl, rfl, rfl, rfl⟩
  · intro h
    have hsome : ((finalState fp).bbox).isSome := by
      unfold finalState
      rcases h with h | h
      · exact foldl_circleStep_isSome _ _ (Or.inl (foldl_padStep_isSome _ _ (Or.inr h)))
      · exact foldl_circleStep_isSome _ _ (Or.inr h)
    obtain ⟨b, hb⟩ := Option.isSome_iff_exists.mp hsome
    refine ⟨b, hb, ?_, ?_, rfl, rfl⟩ <;>
      · unfold convert_to_easyeda
        dsimp only
        rw [hb]

/-- C3 witness: the empty input keeps the default origin with an empty
shape array; a one-pad input has a bounding box and the truncated
box-center origin in both header and canvas. -/
theorem claim3_witness :
    ((convert_to_easyeda ⟨"", [], []⟩).shape = [] ∧
      (convert_to_easyeda ⟨"", [], []⟩).headX = 4000 ∧
      (convert_to_easyeda ⟨"", [], []⟩).headY = 3000 ∧
      (convert_to_easyeda ⟨"", [], []⟩).canvasX = 4000 ∧
      (convert_to_easyeda ⟨"", [], []⟩).canvasY = 3000) ∧
    (∃ b : BBox, (finalState ⟨"", [padTH], []⟩).bbox = some b ∧
      (convert_to_easyeda ⟨"", [padTH], []⟩).headX = pyInt (4000 + (b.minX + b.maxX) / 2) ∧
      (convert_to_easyeda ⟨"", [padTH], []⟩).headY = pyInt (3000 + (b.minY + b.maxY) / 2) ∧
      (convert_to_easyeda ⟨"", [padTH], []⟩).canvasX = (convert_to_easyeda ⟨"", [padTH], []⟩).headX ∧
      (convert_to_easyeda ⟨"", [padTH], []⟩).canvasY = (convert_to_easyeda ⟨"", [padTH], []⟩).headY) :=
  ⟨(claim3_origin ⟨"", [], []⟩).1 ⟨rfl, rfl⟩,
   (claim3_origin ⟨"", [padTH], []⟩).2 (Or.inl (by decide))⟩

/-- C4: over the whole conversion the emitted tokens carry the gge ids
1, 2, 3, ... consecutively in emission order (so the counter advances
exactly once per emitted token, never for a primitive that emits nothing),
and the tokens of the pad loop form a prefix of the final shape array (all
pad tokens precede all circle tokens). -/
theorem claim4_gge_ids (fp : FootprintData) :
    (convert_to_easyeda fp).shape.map Shape.ggeId =
      List.range' 1 (convert_to_easyeda fp).shape.length ∧
    (fp.pads.foldl convertPadStep ⟨[], 1, none⟩).shapes <+: (convert_to_easyeda fp).shape := by
  have hinit : EmitInv 1 ((⟨[], 1, none⟩ : ConvState).shapes, (⟨[], 1, none⟩ : ConvState).gge) :=
    ⟨rfl, rfl⟩
  have hpad := foldl_padStep_inv fp.pads ⟨[], 1, none⟩ hinit
  have hall := foldl_circleStep_inv fp.circles _ hpad
  exact ⟨hall.1, foldl_circleStep_shapes_isPre fp.circles _⟩

/-- C6 (amended): the window inspected for layer names is the text of the
match itself followed by the 200 characters after the match end (the slice
runs from match.start(), not match.end()), so text inside the match, such
as the quoted pad number, can determine the association. -/
theorem claim6_window (content : List Char) (s e : ℕ) (h : s ≤ e) :
    layerWindow content s e = (content.drop s).take (e - s) ++ (content.drop e).take 200 := by
  unfold layerWindow
  have h1 : e + 200 - s = (e - s) + 200 := by omega
  rw [h1, List.take_add, List.drop_drop]
  have h2 : s + (e - s) = e := by omega
  rw [h2]

/-- C6 witness: the window of a span 0..2 is the two matched characters
followed by the 200-character tail window. -/
theorem claim6_witness :
    (0:ℕ) ≤ 2 ∧ layerWindow "abcdef".toList 0 2
      = ("abcdef".toList.drop 0).take (2 - 0) ++ ("abcdef".toList.drop 2).take 200 :=
  ⟨by decide, claim6_window "abcdef".toList 0 2 (by decide)⟩

/-- C6 counterexample to the claim as stated: in fcuNumInput the pad match
spans [0, 54); the 200 characters after the match end contain B.Cu and no
F.Cu, yet the extracted pad is associated with F.Cu, picked up from the
quoted pad number inside the match. -/
theorem claim6_counterexample :
    (padMatches fcuNumInput).map (fun m => (m.start, m.stop)) = [(0, 54)] ∧
    parse_kicad_footprint fcuNumInput = some [fcuNumPad] ∧
    fcuNumPad.layers = ["F.Cu"] ∧
    hasSubstr "F.Cu".toList ((fcuNumInput.drop 54).take 200) = false ∧
    hasSubstr "B.Cu".toList ((fcuNumInput.drop 54).take 200) = true := by
  refine ⟨?_, ?_, ?_, ?_, ?_⟩ <;> decide

/-- C7: the final bounding box is a function of the parsed geometry alone,
identical to folding every pad's half-extent and every circle's
radius-extent whether or not the primitive emitted a token; consequently an
input holding a single smd pad yields an empty shape array while the origin
is computed from that pad's center rather than being the default point. -/
theorem claim7_bbox_regardless :
    (∀ fp : FootprintData, (finalState fp).bbox = geomBBox fp) ∧
    (∀ (nm : String) (p : Pad), p.type = "smd" →
      (convert_to_easyeda ⟨nm, [p], []⟩).shape = [] ∧
      (convert_to_easyeda ⟨nm, [p], []⟩).headX = pyInt (4000 + mm_to_easyeda p.x) ∧
      (convert_to_easyeda ⟨nm, [p], []⟩).headY = pyInt (3000 + mm_to_easyeda p.y)) := by
  constructor
  · intro fp
    unfold finalState geomBBox
    rw [foldl_circleStep_bbox, foldl_padStep_bbox]
  · intro nm p ht
    have hsh := convertPadStep_smd ⟨[], 1, none⟩ p ht
    have hfs : finalState ⟨nm, [p], []⟩ = convertPadStep ⟨[], 1, none⟩ p := rfl
    have hbb : (convertPadStep ⟨[], 1, none⟩ p).bbox
        = some ⟨mm_to_easyeda p.x - mm_to_easyeda p.width / 2,
                mm_to_easyeda p.x + mm_to_easyeda p.width / 2,
                mm_to_easyeda p.y - mm_to_easyeda p.height / 2,
                mm_to_easyeda p.y + mm_to_easyeda p.height / 2⟩ := by
      rw [convertPadStep_bbox]
      rfl
    refine ⟨?_, ?_, ?_⟩
    · show (convert_to_easyeda ⟨nm, [p], []⟩).shape = []
      exact hsh.1
    · show pyInt (4000 + ((mm_to_easyeda p.x - mm_to_easyeda p.width / 2)
          + (mm_to_easyeda p.x + mm_to_easyeda p.width / 2)) / 2)
          = pyInt (4000 + mm_to_easyeda p.x)
      congr 1
      ring
    · show pyInt (3000 + ((mm_to_easyeda p.y - mm_to_easyeda p.height / 2)
          + (mm_to_easyeda p.y + mm_to_easyeda p.height / 2)) / 2)
          = pyInt (3000 + mm_to_easyeda p.y)
      congr 1
      ring

/-- C7 witness: a concrete smd pad at (3, 4) emits nothing, yet the origin
is the truncation of (4000 + 11.81, 3000 + 15.75), not the default. -/
theorem claim7_witness :
    ((convert_to_easyeda ⟨"x", [⟨"1", "smd", "rect", 3, 4, 1, 1, 0, []⟩], []⟩).shape = [] ∧
     (convert_to_easyeda ⟨"x", [⟨"1", "smd", "rect", 3, 4, 1, 1, 0, []⟩], []⟩).headX
       = pyInt (4000 + mm_to_easyeda 3) ∧
     (convert_to_easyeda ⟨"x", [⟨"1", "smd", "rect", 3, 4, 1, 1, 0, []⟩], []⟩).headY
       = pyInt (3000 + mm_to_easyeda 4)) :=
  claim7_bbox_regardless.2 "x" ⟨"1", "smd", "rect", 3, 4, 1, 1, 0, []⟩ rfl

end KicadEasyeda
